import Mathlib

/-!
Verification of the `duo_web` token signing/verification core
(`src/duo_web/__init__.py`).

Python byte strings are embedded as `List Nat` with every element `< 256`
(the predicate `isBytes`).  All functions below are direct translations of
the Python source: cryptographic primitives (`sha1`, `hmacSha1`) implement
SHA-1 / HMAC-SHA1 exactly as `hashlib.sha1` / `hmac.new(k, m, sha1)` do,
`b64encode` / `b64decode` model `base64.b64encode` / `base64.b64decode`
(the decoder is the strict standard decoder: it rejects non-alphabet
characters and bad padding; the claims never depend on Python 2's silent
skipping of non-alphabet characters), `splitOn` models `str.split(c)`,
`pyIntOfBytes` models `int(s)`, `natDecRepr` models `str(n)` for
non-negative `n`.  The wall clock `time.time()` is passed explicitly as a
`now : Nat` parameter.  Fallible Python code whose exceptions are caught by
its callers (`_parse_vals`, the split in `_verify_response`) is embedded as
`Option`-returning code, `none` standing for the caught exception / `None`.
-/

set_option maxRecDepth 10000
set_option linter.unusedVariables false

namespace DuoWeb

/-- A Python (2.x) `str` is a byte string: every element is a byte. -/
def isBytes (l : List Nat) : Prop := ∀ c ∈ l, c < 256

instance isBytes_decidable (l : List Nat) : Decidable (isBytes l) :=
  List.decidableBAll _ l

/-- Python `s.split(d)` for a one-byte separator: `List.splitOn` has
exactly Python's semantics (splits at every occurrence, keeps empty
fields, `''.split(d) == ['']`). -/
def pySplit (d : Nat) (s : List Nat) : List (List Nat) := s.splitOn d

/-- Python `'|'.join(vals)` (byte 124 is `'|'`). -/
def joinPipe : List (List Nat) → List Nat
  | [] => []
  | [v] => v
  | v :: vs => v ++ 124 :: joinPipe vs

/-- Decimal digits of `n`, least significant first; `fuel ≥ n + 1` suffices. -/
def natDigitsRev (fuel n : Nat) : List Nat :=
  match fuel with
  | 0 => []
  | f + 1 => if n < 10 then [n + 48] else (n % 10 + 48) :: natDigitsRev f (n / 10)

/-- Python `str(n)` for a non-negative integer `n`. -/
def natDecRepr (n : Nat) : List Nat := (natDigitsRev (n + 1) n).reverse

/-- Python `int()`'s notion of strippable whitespace. -/
def isPySpace (c : Nat) : Bool :=
  c = 32 || c = 9 || c = 10 || c = 13 || c = 11 || c = 12

/-- Strip leading and trailing whitespace, as `int(s)` does. -/
def pyStrip (s : List Nat) : List Nat :=
  ((s.dropWhile isPySpace).reverse.dropWhile isPySpace).reverse

/-- Accumulating decimal parse: `none` unless every byte is a digit. -/
def digitsAcc : List Nat → Nat → Option Nat
  | [], acc => some acc
  | d :: ds, acc =>
    if 48 ≤ d ∧ d ≤ 57 then digitsAcc ds (acc * 10 + (d - 48)) else none

/-- Parse a non-empty all-digit byte string. -/
def parseDigits (ds : List Nat) : Option Nat :=
  if ds = [] then none else digitsAcc ds 0

/-- Python `int(s)`: optional surrounding whitespace, optional sign,
then a non-empty run of decimal digits; anything else raises (here `none`). -/
def pyIntOfBytes (s : List Nat) : Option Int :=
  match pyStrip s with
  | [] => none
  | c :: cs =>
    if c = 43 then (parseDigits cs).map (fun n => (n : Int))
    else if c = 45 then (parseDigits cs).map (fun n => -(n : Int))
    else (parseDigits (c :: cs)).map (fun n => (n : Int))

/-! ### SHA-1 (`hashlib.sha1`), over byte lists -/

/-- Left 32-bit rotation (inputs and outputs are `< 2^32`). -/
def rotl (n x : Nat) : Nat := ((x <<< n) ||| (x >>> (32 - n))) % 4294967296

/-- The SHA-1 round function `f_t(b, c, d)`. -/
def sha1F (t b c d : Nat) : Nat :=
  if t < 20 then (b &&& c) ||| ((b ^^^ 4294967295) &&& d)
  else if t < 40 then b ^^^ c ^^^ d
  else if t < 60 then (b &&& c) ||| (b &&& d) ||| (c &&& d)
  else b ^^^ c ^^^ d

/-- The SHA-1 round constant `K_t`. -/
def sha1K (t : Nat) : Nat :=
  if t < 20 then 1518500249
  else if t < 40 then 1859775393
  else if t < 60 then 2400959708
  else 3395469782

/-- Message-schedule extension: `ws` is the schedule so far, most recent
word first; performs `fuel` extension steps
`w_t = rotl1 (w_{t-3} xor w_{t-8} xor w_{t-14} xor w_{t-16})`. -/
def sha1Extend (fuel : Nat) (ws : List Nat) : List Nat :=
  match fuel with
  | 0 => ws
  | f + 1 =>
    sha1Extend f
      (rotl 1 (ws.getD 2 0 ^^^ ws.getD 7 0 ^^^ ws.getD 13 0 ^^^ ws.getD 15 0) :: ws)

/-- The 80 compression rounds; `t` is the round index, the state is
`(a, b, c, d, e)`. -/
def sha1Rounds : List Nat → Nat → Nat × Nat × Nat × Nat × Nat → Nat × Nat × Nat × Nat × Nat
  | [], _, st => st
  | w :: ws, t, (a, b, c, d, e) =>
    sha1Rounds ws (t + 1)
      ((rotl 5 a + sha1F t b c d + e + sha1K t + w) % 4294967296, a, rotl 30 b, c, d)

/-- Process one 16-word block, updating the chaining state. -/
def sha1Block (h : Nat × Nat × Nat × Nat × Nat) (block : List Nat) :
    Nat × Nat × Nat × Nat × Nat :=
  match h with
  | (h0, h1, h2, h3, h4) =>
    match sha1Rounds ((sha1Extend 64 block.reverse).reverse) 0 (h0, h1, h2, h3, h4) with
    | (a, b, c, d, e) =>
      ((h0 + a) % 4294967296, (h1 + b) % 4294967296, (h2 + c) % 4294967296,
       (h3 + d) % 4294967296, (h4 + e) % 4294967296)

/-- Big-endian bytes → 32-bit words (4 bytes per word). -/
def toWords : List Nat → List Nat
  | b1 :: b2 :: b3 :: b4 :: rest =>
    ((b1 <<< 24) ||| (b2 <<< 16) ||| (b3 <<< 8) ||| b4) :: toWords rest
  | _ => []

/-- Words (32-bit) → big-endian bytes. -/
def wordsToBytes : List Nat → List Nat
  | [] => []
  | w :: ws =>
    ((w >>> 24) % 256) :: ((w >>> 16) % 256) :: ((w >>> 8) % 256) :: (w % 256) ::
      wordsToBytes ws

/-- Split a word list into 16-word blocks; `fuel ≥ length` suffices. -/
def chunk16 (fuel : Nat) (ws : List Nat) : List (List Nat) :=
  match fuel, ws with
  | 0, _ => []
  | _, [] => []
  | f + 1, ws => ws.take 16 :: chunk16 f (ws.drop 16)

/-- SHA-1 padding: append `0x80`, zeros to 56 mod 64, and the 64-bit
big-endian bit length. -/
def sha1Pad (msg : List Nat) : List Nat :=
  let bitLen := msg.length * 8
  msg ++ 128 :: List.replicate ((120 - (msg.length + 1) % 64) % 64) 0 ++
    [(bitLen >>> 56) % 256, (bitLen >>> 48) % 256, (bitLen >>> 40) % 256,
     (bitLen >>> 32) % 256, (bitLen >>> 24) % 256, (bitLen >>> 16) % 256,
     (bitLen >>> 8) % 256, bitLen % 256]

/-- SHA-1 digest (20 bytes) of a byte list, as `hashlib.sha1(msg).digest()`. -/
def sha1 (msg : List Nat) : List Nat :=
  let padded := sha1Pad msg
  let blocks := chunk16 padded.length (toWords padded)
  match blocks.foldl sha1Block
      (1732584193, 4023233417, 2562383102, 271733878, 3285377520) with
  | (h0, h1, h2, h3, h4) => wordsToBytes [h0, h1, h2, h3, h4]

/-- HMAC-SHA1 digest (20 bytes), as `hmac.new(key, msg, hashlib.sha1)`. -/
def hmacSha1 (key msg : List Nat) : List Nat :=
  let k0 := if 64 < key.length then sha1 key else key
  let k := k0 ++ List.replicate (64 - k0.length) 0
  sha1 ((k.map (fun b => b ^^^ 92)) ++ sha1 ((k.map (fun b => b ^^^ 54)) ++ msg))

/-- One lowercase hex digit (input `< 16`). -/
def hexChar (x : Nat) : Nat := if x < 10 then x + 48 else x + 87

/-- Lowercase hex rendering of a byte list. -/
def hexOfBytes : List Nat → List Nat
  | [] => []
  | b :: bs => hexChar (b / 16 % 16) :: hexChar (b % 16) :: hexOfBytes bs

/-- The `_hmac_sha1(key, msg)` from the source: the lowercase hex digest of
HMAC-SHA1 (`ctx.hexdigest()`), 40 bytes. -/
def hmac_sha1 (key msg : List Nat) : List Nat := hexOfBytes (hmacSha1 key msg)

/-! ### Base64 (`base64.b64encode` / `base64.b64decode`, standard alphabet) -/

/-- The standard base64 alphabet: 6-bit value → ASCII byte. -/
def b64chr (x : Nat) : Nat :=
  if x < 26 then x + 65
  else if x < 52 then x + 71
  else if x < 62 then x - 4
  else if x = 62 then 43
  else 47

/-- Inverse of `b64chr`: ASCII byte → 6-bit value, `none` off-alphabet. -/
def b64dec (c : Nat) : Option Nat :=
  if 65 ≤ c ∧ c ≤ 90 then some (c - 65)
  else if 97 ≤ c ∧ c ≤ 122 then some (c - 71)
  else if 48 ≤ c ∧ c ≤ 57 then some (c + 4)
  else if c = 43 then some 62
  else if c = 47 then some 63
  else none

/-- The `base64.b64encode`: 3 input bytes → 4 alphabet bytes, `'='`-padded
(byte 61) at the end. -/
def b64encode : List Nat → List Nat
  | [] => []
  | [b1] => [b64chr (b1 / 4), b64chr (b1 % 4 * 16), 61, 61]
  | [b1, b2] => [b64chr (b1 / 4), b64chr (b1 % 4 * 16 + b2 / 16), b64chr (b2 % 16 * 4), 61]
  | b1 :: b2 :: b3 :: rest =>
    b64chr (b1 / 4) :: b64chr (b1 % 4 * 16 + b2 / 16) ::
      b64chr (b2 % 16 * 4 + b3 / 64) :: b64chr (b3 % 64) :: b64encode rest

/-- The `base64.b64decode` (strict standard decoder): quads of alphabet bytes,
with `'='` padding allowed only in the final quad; `none` on any other
shape (Python raises there, which every caller of the parse path catches). -/
def b64decode : List Nat → Option (List Nat)
  | [] => some []
  | c1 :: c2 :: c3 :: c4 :: rest =>
    match b64dec c1, b64dec c2 with
    | some x1, some x2 =>
      if c4 = 61 then
        if rest = [] then
          if c3 = 61 then some [x1 * 4 + x2 / 16]
          else
            match b64dec c3 with
            | some x3 => some [x1 * 4 + x2 / 16, x2 % 16 * 16 + x3 / 4]
            | none => none
        else none
      else
        match b64dec c3, b64dec c4 with
        | some x3, some x4 =>
          (b64decode rest).map
            (fun ds => (x1 * 4 + x2 / 16) :: (x2 % 16 * 16 + x3 / 4) :: (x3 % 4 * 64 + x4) :: ds)
        | _, _ => none
    | _, _ => none
  | _ => none

/-! ### The `duo_web` module itself -/

/-- The `DUO_PREFIX = 'TX'`. -/
def DUO_PFX : List Nat := [84, 88]

/-- The `APP_PREFIX = 'APP'`. -/
def APP_PFX : List Nat := [65, 80, 80]

/-- The `AUTH_PREFIX = 'AUTH'`. -/
def AUTH_PFX : List Nat := [65, 85, 84, 72]

/-- The `ENROLL_PREFIX = 'ENROLL'`. -/
def ENROLL_PFX : List Nat := [69, 78, 82, 79, 76, 76]

/-- The `ENROLL_REQUEST_PREFIX = 'ENROLL_REQUEST'`. -/
def ENROLL_REQUEST_PFX : List Nat := [69, 78, 82, 79, 76, 76, 95, 82, 69, 81, 85, 69, 83, 84]

/-- The `DUO_EXPIRE = 300`. -/
def DUO_EXPIRE : Nat := 300

/-- The `APP_EXPIRE = 3600`. -/
def APP_EXPIRE : Nat := 3600

/-- The `IKEY_LEN = 20`. -/
def IKEY_LEN : Nat := 20

/-- The `SKEY_LEN = 40`. -/
def SKEY_LEN : Nat := 40

/-- The `AKEY_LEN = 40`. -/
def AKEY_LEN : Nat := 40

/-- The `ERR_USER = 'ERR|The username passed to sign_request() is invalid.'` -/
def ERR_USER : List Nat := [69, 82, 82, 124, 84, 104, 101, 32, 117, 115, 101, 114, 110, 97, 109, 101, 32, 112, 97, 115, 115, 101, 100, 32, 116, 111, 32, 115, 105, 103, 110, 95, 114, 101, 113, 117, 101, 115, 116, 40, 41, 32, 105, 115, 32, 105, 110, 118, 97, 108, 105, 100, 46]

/-- The `ERR_IKEY = 'ERR|The Duo integration key passed to sign_request() is invalid.'` -/
def ERR_IKEY : List Nat := [69, 82, 82, 124, 84, 104, 101, 32, 68, 117, 111, 32, 105, 110, 116, 101, 103, 114, 97, 116, 105, 111, 110, 32, 107, 101, 121, 32, 112, 97, 115, 115, 101, 100, 32, 116, 111, 32, 115, 105, 103, 110, 95, 114, 101, 113, 117, 101, 115, 116, 40, 41, 32, 105, 115, 32, 105, 110, 118, 97, 108, 105, 100, 46]

/-- The `ERR_SKEY = 'ERR|The Duo secret key passed to sign_request() is invalid.'` -/
def ERR_SKEY : List Nat := [69, 82, 82, 124, 84, 104, 101, 32, 68, 117, 111, 32, 115, 101, 99, 114, 101, 116, 32, 107, 101, 121, 32, 112, 97, 115, 115, 101, 100, 32, 116, 111, 32, 115, 105, 103, 110, 95, 114, 101, 113, 117, 101, 115, 116, 40, 41, 32, 105, 115, 32, 105, 110, 118, 97, 108, 105, 100, 46]

/-- The `ERR_AKEY = 'ERR|The application secret key passed to sign_request() must be at least 40 characters.'` (the `%s` interpolates `AKEY_LEN = 40`). -/
def ERR_AKEY : List Nat := [69, 82, 82, 124, 84, 104, 101, 32, 97, 112, 112, 108, 105, 99, 97, 116, 105, 111, 110, 32, 115, 101, 99, 114, 101, 116, 32, 107, 101, 121, 32, 112, 97, 115, 115, 101, 100, 32, 116, 111, 32, 115, 105, 103, 110, 95, 114, 101, 113, 117, 101, 115, 116, 40, 41, 32, 109, 117, 115, 116, 32, 98, 101, 32, 97, 116, 32, 108, 101, 97, 115, 116, 32, 52, 48, 32, 99, 104, 97, 114, 97, 99, 116, 101, 114, 115, 46]

/-- The `ERR_UNKNOWN = 'ERR|An unknown error has occurred.'` -/
def ERR_UNKNOWN : List Nat := [69, 82, 82, 124, 65, 110, 32, 117, 110, 107, 110, 111, 119, 110, 32, 101, 114, 114, 111, 114, 32, 104, 97, 115, 32, 111, 99, 99, 117, 114, 114, 101, 100, 46]

/-- The `_sign_vals(key, vals, prefix, expire)` with `int(time.time())` passed
explicitly as `now`: sign the pipe-joined claims plus absolute expiration. -/
def sign_vals (key : List Nat) (vals : List (List Nat)) (pfx : List Nat)
    (expire now : Nat) : List Nat :=
  let exp := natDecRepr (now + expire)
  let b64 := b64encode (joinPipe (vals ++ [exp]))
  let cookie := pfx ++ 124 :: b64
  cookie ++ 124 :: hmac_sha1 key cookie

/-- Lines 57–62 of `_parse_vals`:
`user, ikey, exp = <payload>.split('|'); if ts >= int(exp): return None;
return user`, with the arity and `int()` exceptions embedded as `none`. -/
def parse_payload (now : Nat) (payload : List Nat) : Option (List Nat) :=
  match pySplit 124 payload with
  | [user, _ik, exp] =>
    match pyIntOfBytes exp with
    | some e => if (now : Int) ≥ e then none else some user
    | none => none
  | _ => none

/-- The `_parse_vals(key, val, prefix)` with the clock passed as `now`.
Python raises on bad split arity, undecodable base64, bad payload arity or
a non-integer expiration; every caller wraps the call in `try/except` and
turns any exception into `None`, so all those exits are embedded as `none`. -/
def parse_vals (key val pfx : List Nat) (now : Nat) : Option (List Nat) :=
  match pySplit 124 val with
  | [u_pfx, u_b64, u_sig] =>
    if hmac_sha1 key (hmac_sha1 key (u_pfx ++ 124 :: u_b64)) ≠ hmac_sha1 key u_sig
      then none
    else if u_pfx ≠ pfx then none
    else
      match b64decode u_b64 with
      | some payload => parse_payload now payload
      | none => none
  | _ => none

/-- The `_sign_request(ikey, skey, akey, username, prefix)`.  The
`try/except → ERR_UNKNOWN` around the two `_sign_vals` calls is dead in the
embedding because `sign_vals` is total, so it is omitted. -/
def sign_request_p (ikey skey akey username pfx : List Nat) (now : Nat) : List Nat :=
  if username = [] then ERR_USER
  else if ikey = [] ∨ ikey.length ≠ IKEY_LEN then ERR_IKEY
  else if skey = [] ∨ skey.length ≠ SKEY_LEN then ERR_SKEY
  else if akey = [] ∨ akey.length < AKEY_LEN then ERR_AKEY
  else
    sign_vals skey [username, ikey] pfx DUO_EXPIRE now ++ 58 ::
      sign_vals akey [username, ikey] APP_PFX APP_EXPIRE now

/-- The `sign_request`. -/
def sign_request (ikey skey akey username : List Nat) (now : Nat) : List Nat :=
  sign_request_p ikey skey akey username DUO_PFX now

/-- The `sign_enroll_request`. -/
def sign_enroll_request (ikey skey akey username : List Nat) (now : Nat) : List Nat :=
  sign_request_p ikey skey akey username ENROLL_REQUEST_PFX now

/-- The `_verify_response(ikey, skey, akey, prefix, sig_response)`.  The
`try/except` around the colon split and the two parses becomes the `none`
fallthroughs (a parse exception in Python returns `None` before the
comparison; here the failed parse is `none` and the comparison still
returns `none`, the same observable result). -/
def verify_response_p (ikey skey akey pfx sig_response : List Nat) (now : Nat) :
    Option (List Nat) :=
  match pySplit 58 sig_response with
  | [sig, app_sig] =>
    let user := parse_vals skey sig pfx now
    let app_user := parse_vals akey app_sig APP_PFX now
    if user ≠ app_user then none else user
  | _ => none

/-- The `verify_response`. -/
def verify_response (ikey skey akey sig_response : List Nat) (now : Nat) :
    Option (List Nat) :=
  verify_response_p ikey skey akey AUTH_PFX sig_response now

/-- The `verify_enroll_response`. -/
def verify_enroll_response (ikey skey akey sig_response : List Nat) (now : Nat) :
    Option (List Nat) :=
  verify_response_p ikey skey akey ENROLL_PFX sig_response now

/-! ### Concrete inputs used in counterexamples and witnesses -/

/-- The `'I' * 20`, a well-formed integration key. -/
def IKEY0 : List Nat := List.replicate 20 73

/-- The `'S' * 40`, a well-formed secret key. -/
def SKEY0 : List Nat := List.replicate 40 83

/-- The `'A' * 40`, a well-formed application key. -/
def AKEY0 : List Nat := List.replicate 40 65

/-- The `'jsmith'`. -/
def USER0 : List Nat := [106, 115, 109, 105, 116, 104]

/-- The `'alice'`. -/
def ALICE : List Nat := [97, 108, 105, 99, 101]

/-- The `'bob'`. -/
def BOB : List Nat := [98, 111, 98]

/-- The `'aaaaaaaaa|aaaaaaaaaa'`: 20 bytes, but contains the delimiter `'|'`. -/
def IKEY_PIPE : List Nat :=
  [97, 97, 97, 97, 97, 97, 97, 97, 97, 124, 97, 97, 97, 97, 97, 97, 97, 97, 97, 97]

/-- The `'js|mith'`: a username containing the delimiter `'|'`. -/
def USER_PIPE : List Nat := [106, 115, 124, 109, 105, 116, 104]

/-- The claims-plus-expiration payload `'|'.join([username, ikey, str(e)])`
that `_sign_vals` base64-encodes when called from `_sign_request`. -/
def payloadOf (u ik : List Nat) (e : Nat) : List Nat :=
  u ++ 124 :: (ik ++ 124 :: natDecRepr e)


/-! Concrete hex digests used to stage the signature-flip evaluations
(each is checked against the implementation by a shallow `decide`). -/

/-- Splitting never yields the empty list of fields. -/
theorem pySplit_ne_nil (d : Nat) (s : List Nat) : pySplit d s ≠ [] :=
  List.splitOnP_ne_nil _ s

/-- A delimiter-free byte string splits into a single field. -/
theorem pySplit_single (d : Nat) (s : List Nat) (h : ∀ c ∈ s, c ≠ d) :
    pySplit d s = [s] := by
  unfold pySplit List.splitOn
  apply List.splitOnP_eq_single
  intro x hx
  simp [h x hx]

/-- Splitting at the first delimiter occurrence. -/
theorem pySplit_append (d : Nat) (a b : List Nat) (h : ∀ c ∈ a, c ≠ d) :
    pySplit d (a ++ d :: b) = a :: pySplit d b := by
  unfold pySplit List.splitOn
  apply List.splitOnP_first
  · intro x hx
    simp [h x hx]
  · simp

/-- The field count of a split is additive across a delimiter. -/
theorem pySplit_length_append (d : Nat) (a b : List Nat) :
    (pySplit d (a ++ d :: b)).length = (pySplit d a).length + (pySplit d b).length := by
  induction a with
  | nil =>
    simp [pySplit, List.splitOn, List.splitOnP_nil, List.splitOnP_cons]
    omega
  | cons c a ih =>
    simp only [pySplit, List.splitOn, List.cons_append, List.splitOnP_cons] at ih ⊢
    by_cases hc : c = d
    · simp only [hc, beq_self_eq_true, if_true, List.length_cons, ih]
      omega
    · have hb : (c == d) = false := by simp [hc]
      simp only [hb, Bool.false_eq_true, if_false]
      rcases hsp : List.splitOnP (fun x => x == d) (a ++ d :: b) with _ | ⟨w, ws⟩
      · exact absurd hsp (List.splitOnP_ne_nil _ _)
      · rcases hsa : List.splitOnP (fun x => x == d) a with _ | ⟨v, vs⟩
        · exact absurd hsa (List.splitOnP_ne_nil _ _)
        · rw [hsp, hsa] at ih
          simp only [List.modifyHead_cons, List.length_cons] at ih ⊢
          omega

/-- A byte string containing the delimiter splits into at least two fields. -/
theorem pySplit_length_ge_two (d : Nat) (s : List Nat) (h : d ∈ s) :
    2 ≤ (pySplit d s).length := by
  obtain ⟨l1, l2, rfl⟩ := List.append_of_mem h
  rw [pySplit_length_append]
  have h1 : 0 < (pySplit d l1).length := List.length_pos.mpr (pySplit_ne_nil d l1)
  have h2 : 0 < (pySplit d l2).length := List.length_pos.mpr (pySplit_ne_nil d l2)
  omega

/-! ## Helper lemmas: decimal rendering and `int()` parsing -/

/-- The `dropWhile` is the identity when no element satisfies the predicate. -/
theorem dropWhile_eq_self_of_all {p : Nat → Bool} {l : List Nat}
    (h : ∀ c ∈ l, p c = false) : l.dropWhile p = l := by
  cases l with
  | nil => rfl
  | cons c cs => simp [List.dropWhile_cons, h c (List.mem_cons_self c cs)]

/-- Every byte of `natDigitsRev` is an ASCII decimal digit. -/
theorem natDigitsRev_digits (fuel : Nat) :
    ∀ n, ∀ c ∈ natDigitsRev fuel n, 48 ≤ c ∧ c ≤ 57 := by
  induction fuel with
  | zero => intro n c hc; simp [natDigitsRev] at hc
  | succ f ih =>
    intro n c hc
    unfold natDigitsRev at hc
    by_cases h : n < 10
    · simp [h] at hc
      omega
    · simp [h] at hc
      rcases hc with hc | hc
      · omega
      · exact ih _ c hc

/-- Every byte of `str(n)` is an ASCII decimal digit. -/
theorem natDecRepr_digits (n : Nat) : ∀ c ∈ natDecRepr n, 48 ≤ c ∧ c ≤ 57 := by
  intro c hc
  exact natDigitsRev_digits _ _ c (List.mem_reverse.mp hc)

/-- The `str(n)` is never empty. -/
theorem natDecRepr_ne_nil (n : Nat) : natDecRepr n ≠ [] := by
  unfold natDecRepr natDigitsRev
  by_cases h : n < 10 <;> simp [h]

/-- The `digitsAcc` consumes an append sequentially. -/
theorem digitsAcc_append (xs ys : List Nat) (acc : Nat) :
    digitsAcc (xs ++ ys) acc = (digitsAcc xs acc).bind (fun a => digitsAcc ys a) := by
  induction xs generalizing acc with
  | nil => rfl
  | cons d ds ih =>
    simp only [List.cons_append, digitsAcc]
    by_cases h : 48 ≤ d ∧ d ≤ 57
    · simp [h, ih]
    · simp [h]

/-- Reading back the digit string of `n` yields `n` (with an accumulator). -/
theorem digitsAcc_natDigitsRev (fuel : Nat) :
    ∀ n acc, n < fuel →
      digitsAcc ((natDigitsRev fuel n).reverse) acc =
        some (acc * 10 ^ (natDigitsRev fuel n).length + n) := by
  induction fuel with
  | zero => intro n acc h; omega
  | succ f ih =>
    intro n acc h
    unfold natDigitsRev
    by_cases hn : n < 10
    · simp only [hn, if_true, List.reverse_cons, List.reverse_nil, List.nil_append,
        digitsAcc, List.length_cons, List.length_nil]
      have hc : 48 ≤ n + 48 ∧ n + 48 ≤ 57 := by omega
      simp [hc]
    · have hrec : n / 10 < f := by omega
      simp only [hn, if_false, List.reverse_cons, List.length_cons]
      rw [digitsAcc_append, ih (n / 10) acc hrec]
      have hc : 48 ≤ n % 10 + 48 ∧ n % 10 + 48 ≤ 57 := by omega
      simp only [Option.some_bind, digitsAcc, hc, and_self, if_true]
      rw [pow_succ, ← mul_assoc]
      generalize acc * 10 ^ (natDigitsRev f (n / 10)).length = t
      simp only [Option.some.injEq]
      omega

/-- The `parseDigits (str n) = n`. -/
theorem parseDigits_natDecRepr (n : Nat) : parseDigits (natDecRepr n) = some n := by
  unfold parseDigits
  rw [if_neg (natDecRepr_ne_nil n)]
  unfold natDecRepr
  rw [digitsAcc_natDigitsRev (n + 1) n 0 (by omega)]
  simp

/-- Stripping is the identity on an all-digit byte string. -/
theorem pyStrip_of_digits {l : List Nat} (h : ∀ c ∈ l, 48 ≤ c ∧ c ≤ 57) :
    pyStrip l = l := by
  have hs : ∀ c ∈ l, isPySpace c = false := by
    intro c hc
    have := h c hc
    simp [isPySpace]
    omega
  unfold pyStrip
  rw [dropWhile_eq_self_of_all hs,
    dropWhile_eq_self_of_all (fun c hc => hs c (List.mem_reverse.mp hc)),
    List.reverse_reverse]

/-- Python `int(str(n)) = n` for a natural number `n`. -/
theorem pyInt_natDecRepr (n : Nat) : pyIntOfBytes (natDecRepr n) = some (n : Int) := by
  unfold pyIntOfBytes
  rw [pyStrip_of_digits (natDecRepr_digits n)]
  rcases hd : natDecRepr n with _ | ⟨c, cs⟩
  · exact absurd hd (natDecRepr_ne_nil n)
  · have hc : 48 ≤ c ∧ c ≤ 57 := natDecRepr_digits n c (by rw [hd]; exact List.mem_cons_self c cs)
    have h43 : c ≠ 43 := by omega
    have h45 : c ≠ 45 := by omega
    simp only [h43, if_false, h45]
    rw [← hd, parseDigits_natDecRepr]
    rfl

/-! ## Helper lemmas: base64 and hex -/

/-- Alphabet facts for 6-bit values, by direct computation. -/
theorem b64chr_spec :
    ∀ x, x < 64 → b64dec (b64chr x) = some x ∧ b64chr x ≠ 124 ∧ b64chr x ≠ 58 ∧
      b64chr x ≠ 61 ∧ b64chr x < 256 := by decide

/-- Every output byte of `b64encode` is an alphabet byte or `'='` (61). -/
theorem b64encode_mem :
    ∀ (l : List Nat), isBytes l → ∀ c ∈ b64encode l,
      (∃ x, x < 64 ∧ c = b64chr x) ∨ c = 61
  | [], _, c, hc => by simp [b64encode] at hc
  | [b1], h, c, hc => by
    have hb1 : b1 < 256 := h b1 (by simp)
    simp only [b64encode, List.mem_cons, List.not_mem_nil, or_false] at hc
    rcases hc with rfl | rfl | rfl | rfl
    · exact Or.inl ⟨b1 / 4, by omega, rfl⟩
    · exact Or.inl ⟨b1 % 4 * 16, by omega, rfl⟩
    · exact Or.inr rfl
    · exact Or.inr rfl
  | [b1, b2], h, c, hc => by
    have hb1 : b1 < 256 := h b1 (by simp)
    have hb2 : b2 < 256 := h b2 (by simp)
    simp only [b64encode, List.mem_cons, List.not_mem_nil, or_false] at hc
    rcases hc with rfl | rfl | rfl | rfl
    · exact Or.inl ⟨b1 / 4, by omega, rfl⟩
    · exact Or.inl ⟨b1 % 4 * 16 + b2 / 16, by omega, rfl⟩
    · exact Or.inl ⟨b2 % 16 * 4, by omega, rfl⟩
    · exact Or.inr rfl
  | b1 :: b2 :: b3 :: rest, h, c, hc => by
    have hb1 : b1 < 256 := h b1 (by simp)
    have hb2 : b2 < 256 := h b2 (by simp)
    have hb3 : b3 < 256 := h b3 (by simp)
    rw [b64encode] at hc
    simp only [List.mem_cons] at hc
    rcases hc with rfl | rfl | rfl | rfl | hc
    · exact Or.inl ⟨b1 / 4, by omega, rfl⟩
    · exact Or.inl ⟨b1 % 4 * 16 + b2 / 16, by omega, rfl⟩
    · exact Or.inl ⟨b2 % 16 * 4 + b3 / 64, by omega, rfl⟩
    · exact Or.inl ⟨b3 % 64, by omega, rfl⟩
    · exact b64encode_mem rest
        (fun x hx => h x (List.mem_cons_of_mem _ (List.mem_cons_of_mem _ (List.mem_cons_of_mem _ hx)))) c hc

/-- The `b64encode` output never contains the delimiter `'|'` (124). -/
theorem b64encode_no_pipe {l : List Nat} (h : isBytes l) :
    ∀ c ∈ b64encode l, c ≠ 124 := by
  intro c hc
  rcases b64encode_mem l h c hc with ⟨x, hx, rfl⟩ | rfl
  · exact (b64chr_spec x hx).2.1
  · omega

/-- The `b64encode` output never contains `':'` (58). -/
theorem b64encode_no_colon {l : List Nat} (h : isBytes l) :
    ∀ c ∈ b64encode l, c ≠ 58 := by
  intro c hc
  rcases b64encode_mem l h c hc with ⟨x, hx, rfl⟩ | rfl
  · exact (b64chr_spec x hx).2.2.1
  · omega

/-- The `b64encode` output is itself a byte string. -/
theorem b64encode_isBytes {l : List Nat} (h : isBytes l) : isBytes (b64encode l) := by
  intro c hc
  rcases b64encode_mem l h c hc with ⟨x, hx, rfl⟩ | rfl
  · exact (b64chr_spec x hx).2.2.2.2
  · omega

/-- Decoding inverts encoding on byte strings. -/
theorem b64decode_encode :
    ∀ (l : List Nat), isBytes l → b64decode (b64encode l) = some l
  | [], _ => rfl
  | [b1], h => by
    have hb1 : b1 < 256 := h b1 (by simp)
    have h1 := b64chr_spec (b1 / 4) (by omega)
    have h2 := b64chr_spec (b1 % 4 * 16) (by omega)
    simp [b64encode, b64decode, h1.1, h2.1]
    omega
  | [b1, b2], h => by
    have hb1 : b1 < 256 := h b1 (by simp)
    have hb2 : b2 < 256 := h b2 (by simp)
    have h1 := b64chr_spec (b1 / 4) (by omega)
    have h2 := b64chr_spec (b1 % 4 * 16 + b2 / 16) (by omega)
    have h3 := b64chr_spec (b2 % 16 * 4) (by omega)
    simp [b64encode, b64decode, h1.1, h2.1, h3.1, h3.2.2.2.1]
    omega
  | b1 :: b2 :: b3 :: rest, h => by
    have hb1 : b1 < 256 := h b1 (by simp)
    have hb2 : b2 < 256 := h b2 (by simp)
    have hb3 : b3 < 256 := h b3 (by simp)
    have h1 := b64chr_spec (b1 / 4) (by omega)
    have h2 := b64chr_spec (b1 % 4 * 16 + b2 / 16) (by omega)
    have h3 := b64chr_spec (b2 % 16 * 4 + b3 / 64) (by omega)
    have h4 := b64chr_spec (b3 % 64) (by omega)
    have hrec := b64decode_encode rest
      (fun x hx => h x (List.mem_cons_of_mem _ (List.mem_cons_of_mem _ (List.mem_cons_of_mem _ hx))))
    rw [b64encode]
    simp [b64decode, h1.1, h2.1, h3.1, h4.1, h4.2.2.2.1, hrec]
    omega

/-- Every hex digit byte produced by `hexChar` on a nibble. -/
theorem hexChar_range :
    ∀ x, x < 16 → (48 ≤ hexChar x ∧ hexChar x ≤ 57) ∨ (97 ≤ hexChar x ∧ hexChar x ≤ 102) := by
  decide

/-- Every byte of a hex rendering is an ASCII digit or `'a'`–`'f'`. -/
theorem hexOfBytes_mem :
    ∀ (l : List Nat), ∀ c ∈ hexOfBytes l,
      (48 ≤ c ∧ c ≤ 57) ∨ (97 ≤ c ∧ c ≤ 102)
  | [], c, hc => by simp [hexOfBytes] at hc
  | b :: bs, c, hc => by
    simp only [hexOfBytes, List.mem_cons] at hc
    rcases hc with rfl | rfl | hc
    · exact hexChar_range _ (by omega)
    · exact hexChar_range _ (by omega)
    · exact hexOfBytes_mem bs c hc

/-- Bytes of `_hmac_sha1` output (a hex digest) are hex-digit ASCII. -/
theorem hmac_sha1_mem (key msg : List Nat) :
    ∀ c ∈ hmac_sha1 key msg, (48 ≤ c ∧ c ≤ 57) ∨ (97 ≤ c ∧ c ≤ 102) := by
  unfold hmac_sha1
  exact hexOfBytes_mem _

/-- A hex digest never contains `'|'` (124). -/
theorem hmac_sha1_no_pipe (key msg : List Nat) :
    ∀ c ∈ hmac_sha1 key msg, c ≠ 124 := by
  intro c hc
  rcases hmac_sha1_mem key msg c hc with h | h <;> omega

/-- A hex digest never contains `':'` (58). -/
theorem hmac_sha1_no_colon (key msg : List Nat) :
    ∀ c ∈ hmac_sha1 key msg, c ≠ 58 := by
  intro c hc
  rcases hmac_sha1_mem key msg c hc with h | h <;> omega

/-- The `str(n)` never contains `'|'` (124). -/
theorem natDecRepr_no_pipe (n : Nat) : ∀ c ∈ natDecRepr n, c ≠ 124 := by
  intro c hc
  have := natDecRepr_digits n c hc
  omega

/-- The `str(n)` never contains `':'` (58). -/
theorem natDecRepr_no_colon (n : Nat) : ∀ c ∈ natDecRepr n, c ≠ 58 := by
  intro c hc
  have := natDecRepr_digits n c hc
  omega

/-- The `str(n)` is a byte string. -/
theorem natDecRepr_isBytes (n : Nat) : isBytes (natDecRepr n) := by
  intro c hc
  have := natDecRepr_digits n c hc
  omega

/-! ## Characterization of sign/parse/verify -/

/-- The `_sign_vals` on the two claims used by `_sign_request`, unfolded to its
wire shape `prefix | base64(payload) | hexhmac(key, prefix | base64(payload))`. -/
theorem sign_vals_two (key u ik pfx : List Nat) (expire now : Nat) :
    sign_vals key [u, ik] pfx expire now =
      (pfx ++ 124 :: b64encode (payloadOf u ik (now + expire))) ++ 124 ::
        hmac_sha1 key (pfx ++ 124 :: b64encode (payloadOf u ik (now + expire))) := rfl

/-- The payload is a byte string when the claims are. -/
theorem payloadOf_isBytes {u ik : List Nat} (hu : isBytes u) (hik : isBytes ik)
    (e : Nat) : isBytes (payloadOf u ik e) := by
  intro c hc
  unfold payloadOf at hc
  simp only [List.mem_append, List.mem_cons] at hc
  rcases hc with hc | rfl | hc | rfl | hc
  · exact hu c hc
  · omega
  · exact hik c hc
  · omega
  · exact natDecRepr_isBytes e c hc

/-- Splitting the payload recovers the claim fields. -/
theorem payloadOf_split {u ik : List Nat} (hu : ∀ c ∈ u, c ≠ 124)
    (hik : ∀ c ∈ ik, c ≠ 124) (e : Nat) :
    pySplit 124 (payloadOf u ik e) = [u, ik, natDecRepr e] := by
  unfold payloadOf
  rw [pySplit_append 124 u _ hu, pySplit_append 124 ik _ hik,
    pySplit_single 124 _ (natDecRepr_no_pipe e)]

/-- Splitting a signed value recovers prefix, base64 payload, signature. -/
theorem pySplit_sign (pfx u ik s : List Nat) (e : Nat)
    (hpfx : ∀ c ∈ pfx, c ≠ 124) (hu : isBytes u) (hik : isBytes ik)
    (hs : ∀ c ∈ s, c ≠ 124) :
    pySplit 124 ((pfx ++ 124 :: b64encode (payloadOf u ik e)) ++ 124 :: s) =
      [pfx, b64encode (payloadOf u ik e), s] := by
  rw [List.append_assoc, List.cons_append]
  rw [pySplit_append 124 pfx _ hpfx,
    pySplit_append 124 _ _ (b64encode_no_pipe (payloadOf_isBytes hu hik e)),
    pySplit_single 124 s hs]

/-- The `_parse_vals` unfolded on a value that splits into exactly three fields. -/
theorem parse_vals_split_eq {val p b s : List Nat} (key pfx : List Nat) (now : Nat)
    (h : pySplit 124 val = [p, b, s]) :
    parse_vals key val pfx now =
      (if hmac_sha1 key (hmac_sha1 key (p ++ 124 :: b)) ≠ hmac_sha1 key s then none
       else if p ≠ pfx then none
       else
         match b64decode b with
         | some payload => parse_payload now payload
         | none => none) := by
  unfold parse_vals
  rw [h]

/-- The `_parse_vals` fails when the value does not split into three fields. -/
theorem parse_vals_arity3 {val : List Nat} (key pfx : List Nat) (now : Nat)
    (h : (pySplit 124 val).length ≠ 3) : parse_vals key val pfx now = none := by
  unfold parse_vals
  rcases hs : pySplit 124 val with _ | ⟨a, _ | ⟨b, _ | ⟨c, _ | ⟨e, t⟩⟩⟩⟩
  · rfl
  · rfl
  · rfl
  · rw [hs] at h
    simp at h
  · rfl

/-- The payload step fails when the payload does not split into three fields. -/
theorem parse_payload_arity3 {payload : List Nat} (now : Nat)
    (h : (pySplit 124 payload).length ≠ 3) : parse_payload now payload = none := by
  unfold parse_payload
  rcases hs : pySplit 124 payload with _ | ⟨a, _ | ⟨b, _ | ⟨c, _ | ⟨e, t⟩⟩⟩⟩
  · rfl
  · rfl
  · rfl
  · rw [hs] at h
    simp at h
  · rfl

/-- The payload step on a well-formed payload: strict expiration check,
then the username. -/
theorem parse_payload_good (now e : Nat) {u ik : List Nat}
    (hu : ∀ c ∈ u, c ≠ 124) (hik : ∀ c ∈ ik, c ≠ 124) :
    parse_payload now (payloadOf u ik e) = if e ≤ now then none else some u := by
  unfold parse_payload
  rw [payloadOf_split hu hik e]
  simp only [pyInt_natDecRepr, ge_iff_le, Nat.cast_le]

/-- Parsing a value signed with the same key and the expected prefix:
succeeds with the username iff the verifier clock is strictly before the
embedded expiration. -/
theorem parse_sign_same (key pfx u ik : List Nat) (expire now t : Nat)
    (hpfx : ∀ c ∈ pfx, c ≠ 124) (hu : isBytes u) (hik : isBytes ik)
    (hu2 : ∀ c ∈ u, c ≠ 124) (hik2 : ∀ c ∈ ik, c ≠ 124) :
    parse_vals key (sign_vals key [u, ik] pfx expire now) pfx t =
      if now + expire ≤ t then none else some u := by
  rw [sign_vals_two,
    parse_vals_split_eq key pfx t
      (pySplit_sign pfx u ik _ (now + expire) hpfx hu hik (hmac_sha1_no_pipe key _)),
    if_neg (by simp), if_neg (by simp),
    b64decode_encode _ (payloadOf_isBytes hu hik _)]
  exact parse_payload_good t (now + expire) hu2 hik2

/-- Parsing a value signed under one prefix against a different expected
prefix always fails, even though the signature check passes. -/
theorem parse_sign_other (key pfxA pfxB u ik : List Nat) (expire now t : Nat)
    (hpfx : ∀ c ∈ pfxA, c ≠ 124) (hu : isBytes u) (hik : isBytes ik)
    (hne : pfxA ≠ pfxB) :
    parse_vals key (sign_vals key [u, ik] pfxA expire now) pfxB t = none := by
  rw [sign_vals_two,
    parse_vals_split_eq key pfxB t
      (pySplit_sign pfxA u ik _ (now + expire) hpfx hu hik (hmac_sha1_no_pipe key _)),
    if_neg (by simp), if_pos hne]

/-- Parsing a validly signed value whose username claim contains `'|'`
fails: the decoded payload splits into more than three fields. -/
theorem parse_sign_pipe (key pfx u ik : List Nat) (expire now t : Nat)
    (hpfx : ∀ c ∈ pfx, c ≠ 124) (hu : isBytes u) (hik : isBytes ik)
    (hmem : 124 ∈ u) :
    parse_vals key (sign_vals key [u, ik] pfx expire now) pfx t = none := by
  rw [sign_vals_two,
    parse_vals_split_eq key pfx t
      (pySplit_sign pfx u ik _ (now + expire) hpfx hu hik (hmac_sha1_no_pipe key _)),
    if_neg (by simp), if_neg (by simp),
    b64decode_encode _ (payloadOf_isBytes hu hik _)]
  apply parse_payload_arity3
  unfold payloadOf
  rw [pySplit_length_append, pySplit_length_append]
  have h2 := pySplit_length_ge_two 124 u hmem
  have h3 : 0 < (pySplit 124 ik).length := List.length_pos.mpr (pySplit_ne_nil 124 ik)
  have h4 : 0 < (pySplit 124 (natDecRepr (now + expire))).length :=
    List.length_pos.mpr (pySplit_ne_nil 124 _)
  omega

/-- The `_verify_response` unfolded on a response that splits into two halves. -/
theorem verify_split_eq {resp x y : List Nat} (ikey skey akey pfx : List Nat)
    (now : Nat) (h : pySplit 58 resp = [x, y]) :
    verify_response_p ikey skey akey pfx resp now =
      (if parse_vals skey x pfx now ≠ parse_vals akey y APP_PFX now then none
       else parse_vals skey x pfx now) := by
  unfold verify_response_p
  rw [h]

/-- The `_verify_response` fails when the response does not split into two
halves at `':'`. -/
theorem verify_arity2 {resp : List Nat} (ikey skey akey pfx : List Nat) (now : Nat)
    (h : (pySplit 58 resp).length ≠ 2) :
    verify_response_p ikey skey akey pfx resp now = none := by
  unfold verify_response_p
  rcases hs : pySplit 58 resp with _ | ⟨a, _ | ⟨b, _ | ⟨c, t⟩⟩⟩
  · rfl
  · rfl
  · rw [hs] at h
    simp at h
  · rfl

/-- A signed value contains no `':'` byte when its prefix does not. -/
theorem sign_vals_no_colon (key pfx u ik : List Nat) (expire now : Nat)
    (hpfx : ∀ c ∈ pfx, c ≠ 58) (hu : isBytes u) (hik : isBytes ik) :
    ∀ c ∈ sign_vals key [u, ik] pfx expire now, c ≠ 58 := by
  intro c hc
  rw [sign_vals_two] at hc
  simp only [List.mem_append, List.mem_cons] at hc
  rcases hc with (hc | rfl | hc) | rfl | hc
  · exact hpfx c hc
  · omega
  · exact b64encode_no_colon (payloadOf_isBytes hu hik _) c hc
  · omega
  · exact hmac_sha1_no_colon key _ c hc

/-- The `_sign_request` on inputs passing all four validations returns the
colon-joined pair of signed values. -/
theorem sign_request_p_valid (ikey skey akey u pfx : List Nat) (now : Nat)
    (hu : u ≠ []) (hik : ikey.length = 20) (hsk : skey.length = 40)
    (hak : 40 ≤ akey.length) :
    sign_request_p ikey skey akey u pfx now =
      sign_vals skey [u, ikey] pfx DUO_EXPIRE now ++ 58 ::
        sign_vals akey [u, ikey] APP_PFX APP_EXPIRE now := by
  have h1 : ¬(ikey = [] ∨ ikey.length ≠ IKEY_LEN) := by
    simp [IKEY_LEN, hik]
    intro h
    rw [h] at hik
    simp at hik
  have h2 : ¬(skey = [] ∨ skey.length ≠ SKEY_LEN) := by
    simp [SKEY_LEN, hsk]
    intro h
    rw [h] at hsk
    simp at hsk
  have h3 : ¬(akey = [] ∨ akey.length < AKEY_LEN) := by
    simp [AKEY_LEN]
    constructor
    · intro h
      rw [h] at hak
      simp at hak
    · omega
  unfold sign_request_p
  rw [if_neg hu, if_neg h1, if_neg h2, if_neg h3]

/-- A token produced by `_sign_request` from valid inputs is none of the
five `ERR|`-sentinels (its first bytes are the prefix, not `'ERR|'`). -/
theorem sign_request_p_ne_sentinel (ikey skey akey u pfx : List Nat) (now : Nat)
    (hu : u ≠ []) (hik : ikey.length = 20) (hsk : skey.length = 40)
    (hak : 40 ≤ akey.length)
    (hpfx : pfx = DUO_PFX ∨ pfx = ENROLL_REQUEST_PFX) :
    sign_request_p ikey skey akey u pfx now ≠ ERR_USER ∧
    sign_request_p ikey skey akey u pfx now ≠ ERR_IKEY ∧
    sign_request_p ikey skey akey u pfx now ≠ ERR_SKEY ∧
    sign_request_p ikey skey akey u pfx now ≠ ERR_AKEY ∧
    sign_request_p ikey skey akey u pfx now ≠ ERR_UNKNOWN := by
  rw [sign_request_p_valid ikey skey akey u pfx now hu hik hsk hak]
  rcases hpfx with rfl | rfl <;>
    simp [sign_vals_two, DUO_PFX, ENROLL_REQUEST_PFX, ERR_USER, ERR_IKEY,
      ERR_SKEY, ERR_AKEY, ERR_UNKNOWN]


/-- Inversion: a successful parse pins down the whole structure of the
value — prefix match, double-HMAC signature equality, decodable payload
with three fields, integer expiration strictly after the clock. -/
theorem parse_vals_some_inv {key val pfx : List Nat} {now : Nat} {u : List Nat}
    (h : parse_vals key val pfx now = some u) :
    ∃ b s payload ik ex e,
      pySplit 124 val = [pfx, b, s] ∧
      hmac_sha1 key (hmac_sha1 key (pfx ++ 124 :: b)) = hmac_sha1 key s ∧
      b64decode b = some payload ∧
      pySplit 124 payload = [u, ik, ex] ∧
      pyIntOfBytes ex = some e ∧ (now : Int) < e := by
  unfold parse_vals at h
  split at h
  · next p b s heq =>
    split at h
    · exact absurd h (by simp)
    · next hsig =>
      split at h
      · exact absurd h (by simp)
      · next hp =>
        split at h
        · next payload hb =>
          unfold parse_payload at h
          split at h
          · next u1 ik ex heq2 =>
            split at h
            · next e he =>
              split at h
              · exact absurd h (by simp)
              · next hge =>
                simp only [Option.some.injEq] at h
                subst h
                have hpp : p = pfx := not_ne_iff.mp hp
                subst hpp
                exact ⟨b, s, payload, ik, ex, e, heq, not_ne_iff.mp hsig, hb, heq2,
                  he, by omega⟩
            · exact absurd h (by simp)
          · exact absurd h (by simp)
        · next hb => exact absurd h (by simp)
  · next x heq => exact absurd h (by simp)

/-! ## The claims -/

/-- C1 (counterexample): at the spec's own end-to-end inputs
(`ikey = 'I'*20`, `skey = 'S'*40`, `akey = 'A'*40`, `username = 'jsmith'`,
all of the claimed lengths, the username non-empty) and a single clock
time `0`, `verify_response(ikey, skey, akey, sign_request(ikey, skey,
akey, username))` returns `None` — not the username.  `sign_request`
signs its provider half with prefix `TX` while `verify_response` requires
prefix `AUTH`, so the direct composition always fails. -/
theorem C1_round_trip_cex :
    USER0 ≠ [] ∧ IKEY0.length = 20 ∧ SKEY0.length = 40 ∧ AKEY0.length = 40 ∧
    verify_response IKEY0 SKEY0 AKEY0 (sign_request IKEY0 SKEY0 AKEY0 USER0 0) 0 =
      none := by
  refine ⟨by decide, by decide, by decide, by decide, ?_⟩
  unfold verify_response sign_request
  rw [sign_request_p_valid IKEY0 SKEY0 AKEY0 USER0 DUO_PFX 0 (by decide) (by decide)
    (by decide) (by decide)]
  have hs1 := sign_vals_no_colon SKEY0 DUO_PFX USER0 IKEY0 DUO_EXPIRE 0 (by decide)
    (by decide) (by decide)
  have hs2 := sign_vals_no_colon AKEY0 APP_PFX USER0 IKEY0 APP_EXPIRE 0 (by decide)
    (by decide) (by decide)
  have hsplit : pySplit 58 (sign_vals SKEY0 [USER0, IKEY0] DUO_PFX DUO_EXPIRE 0 ++ 58 ::
      sign_vals AKEY0 [USER0, IKEY0] APP_PFX APP_EXPIRE 0) =
      [sign_vals SKEY0 [USER0, IKEY0] DUO_PFX DUO_EXPIRE 0,
       sign_vals AKEY0 [USER0, IKEY0] APP_PFX APP_EXPIRE 0] := by
    rw [pySplit_append 58 _ _ hs1, pySplit_single 58 _ hs2]
  rw [verify_split_eq IKEY0 SKEY0 AKEY0 AUTH_PFX 0 hsplit]
  rw [parse_sign_other SKEY0 DUO_PFX AUTH_PFX USER0 IKEY0 DUO_EXPIRE 0 0 (by decide)
    (by decide) (by decide) (by decide)]
  rw [parse_sign_same AKEY0 APP_PFX USER0 IKEY0 APP_EXPIRE 0 0 (by decide) (by decide)
    (by decide) (by decide) (by decide)]
  rw [if_neg (show ¬(0 + APP_EXPIRE ≤ 0) by decide)]
  rw [if_pos (by simp)]

/-- C1 (amended): for valid keys and username (correct lengths, byte
strings, no `'|'` in the claims), a compound token whose provider half is
signed with the response prefix `AUTH` (as the provider produces) and
whose application half is signed with `APP` — same keys, same clock —
verifies to exactly the username; the direct composition
`verify_response ∘ sign_request`, by contrast, returns `None`, because
`sign_request` uses the request prefix `TX` while `verify_response`
expects `AUTH`. -/
theorem C1_round_trip_amended (ikey skey akey u : List Nat) (now : Nat)
    (hu : u ≠ []) (hub : isBytes u) (hup : ∀ c ∈ u, c ≠ 124)
    (hik : ikey.length = 20) (hikb : isBytes ikey) (hikp : ∀ c ∈ ikey, c ≠ 124)
    (hsk : skey.length = 40) (hak : 40 ≤ akey.length) :
    verify_response ikey skey akey
        (sign_vals skey [u, ikey] AUTH_PFX DUO_EXPIRE now ++ 58 ::
          sign_vals akey [u, ikey] APP_PFX APP_EXPIRE now) now = some u ∧
    verify_response ikey skey akey (sign_request ikey skey akey u now) now = none := by
  have hs2 := sign_vals_no_colon akey APP_PFX u ikey APP_EXPIRE now (by decide) hub hikb
  constructor
  · unfold verify_response
    have hs1 := sign_vals_no_colon skey AUTH_PFX u ikey DUO_EXPIRE now (by decide) hub hikb
    have hsplit : pySplit 58 (sign_vals skey [u, ikey] AUTH_PFX DUO_EXPIRE now ++ 58 ::
        sign_vals akey [u, ikey] APP_PFX APP_EXPIRE now) =
        [sign_vals skey [u, ikey] AUTH_PFX DUO_EXPIRE now,
         sign_vals akey [u, ikey] APP_PFX APP_EXPIRE now] := by
      rw [pySplit_append 58 _ _ hs1, pySplit_single 58 _ hs2]
    rw [verify_split_eq ikey skey akey AUTH_PFX now hsplit]
    rw [parse_sign_same skey AUTH_PFX u ikey DUO_EXPIRE now now (by decide) hub hikb
      hup hikp]
    rw [parse_sign_same akey APP_PFX u ikey APP_EXPIRE now now (by decide) hub hikb
      hup hikp]
    rw [if_neg (show ¬(now + DUO_EXPIRE ≤ now) by simp only [DUO_EXPIRE]; omega),
      if_neg (show ¬(now + APP_EXPIRE ≤ now) by simp only [APP_EXPIRE]; omega)]
    simp
  · unfold verify_response sign_request
    rw [sign_request_p_valid ikey skey akey u DUO_PFX now hu hik hsk hak]
    have hs1 := sign_vals_no_colon skey DUO_PFX u ikey DUO_EXPIRE now (by decide) hub hikb
    have hsplit : pySplit 58 (sign_vals skey [u, ikey] DUO_PFX DUO_EXPIRE now ++ 58 ::
        sign_vals akey [u, ikey] APP_PFX APP_EXPIRE now) =
        [sign_vals skey [u, ikey] DUO_PFX DUO_EXPIRE now,
         sign_vals akey [u, ikey] APP_PFX APP_EXPIRE now] := by
      rw [pySplit_append 58 _ _ hs1, pySplit_single 58 _ hs2]
    rw [verify_split_eq ikey skey akey AUTH_PFX now hsplit]
    rw [parse_sign_other skey DUO_PFX AUTH_PFX u ikey DUO_EXPIRE now now (by decide)
      hub hikb (by decide)]
    rw [parse_sign_same akey APP_PFX u ikey APP_EXPIRE now now (by decide) hub hikb
      hup hikp]
    rw [if_neg (show ¬(now + APP_EXPIRE ≤ now) by simp only [APP_EXPIRE]; omega)]
    rw [if_pos (by simp)]

/-- C1 (witness): the amended round trip and the failing direct
composition, at the concrete end-to-end inputs. -/
theorem C1_round_trip_amended_witness :
    verify_response IKEY0 SKEY0 AKEY0
        (sign_vals SKEY0 [USER0, IKEY0] AUTH_PFX DUO_EXPIRE 0 ++ 58 ::
          sign_vals AKEY0 [USER0, IKEY0] APP_PFX APP_EXPIRE 0) 0 = some USER0 ∧
    verify_response IKEY0 SKEY0 AKEY0 (sign_request IKEY0 SKEY0 AKEY0 USER0 0) 0 =
      none :=
  C1_round_trip_amended IKEY0 SKEY0 AKEY0 USER0 0 (by decide) (by decide) (by decide)
    (by decide) (by decide) (by decide) (by decide) (by decide)


/-- C2: the two public verify operations are total functions into
`Option` (the embedding of "never raise": every Python exception on the
verification path is caught and embedded as `none`), and every
enumerated failure mode yields the single outcome `none`: a compound
token whose colon-split arity is not 2; a failed or mismatching half
(which covers signature mismatch, prefix mismatch, malformed values,
expired values, and username mismatch between the halves); a signed
value whose pipe-split arity is not 3; a signature-comparison failure; a
prefix mismatch; an undecodable payload; a payload whose pipe-split
arity is not 3; a non-integer expiration; and an expired value. -/
theorem C2_all_failures_none :
    (∀ ikey skey akey resp now, (pySplit 58 resp).length ≠ 2 →
      verify_response ikey skey akey resp now = none ∧
      verify_enroll_response ikey skey akey resp now = none) ∧
    (∀ ikey skey akey resp x y now, pySplit 58 resp = [x, y] →
      (parse_vals skey x AUTH_PFX now = none ∨
       parse_vals akey y APP_PFX now = none ∨
       parse_vals skey x AUTH_PFX now ≠ parse_vals akey y APP_PFX now) →
      verify_response ikey skey akey resp now = none) ∧
    (∀ ikey skey akey resp x y now, pySplit 58 resp = [x, y] →
      (parse_vals skey x ENROLL_PFX now = none ∨
       parse_vals akey y APP_PFX now = none ∨
       parse_vals skey x ENROLL_PFX now ≠ parse_vals akey y APP_PFX now) →
      verify_enroll_response ikey skey akey resp now = none) ∧
    (∀ key val pfx now, (pySplit 124 val).length ≠ 3 →
      parse_vals key val pfx now = none) ∧
    (∀ key val p b s pfx now, pySplit 124 val = [p, b, s] →
      hmac_sha1 key (hmac_sha1 key (p ++ 124 :: b)) ≠ hmac_sha1 key s →
      parse_vals key val pfx now = none) ∧
    (∀ key val p b s pfx now, pySplit 124 val = [p, b, s] → p ≠ pfx →
      parse_vals key val pfx now = none) ∧
    (∀ key val p b s pfx now, pySplit 124 val = [p, b, s] → b64decode b = none →
      parse_vals key val pfx now = none) ∧
    (∀ (now : Nat) payload, (pySplit 124 payload).length ≠ 3 →
      parse_payload now payload = none) ∧
    (∀ (now : Nat) payload u ik ex, pySplit 124 payload = [u, ik, ex] →
      pyIntOfBytes ex = none → parse_payload now payload = none) ∧
    (∀ (now : Nat) payload u ik ex (e : Int), pySplit 124 payload = [u, ik, ex] →
      pyIntOfBytes ex = some e → (now : Int) ≥ e →
      parse_payload now payload = none) := by
  refine ⟨?_, ?_, ?_, ?_, ?_, ?_, ?_, ?_, ?_, ?_⟩
  · intro ikey skey akey resp now h
    exact ⟨verify_arity2 ikey skey akey AUTH_PFX now h,
      verify_arity2 ikey skey akey ENROLL_PFX now h⟩
  · intro ikey skey akey resp x y now h hd
    unfold verify_response
    rw [verify_split_eq ikey skey akey AUTH_PFX now h]
    rcases hd with h1 | h2 | h3
    · rw [h1]
      split <;> rfl
    · rw [h2]
      rcases hd2 : parse_vals skey x AUTH_PFX now with _ | v <;> simp [hd2]
    · rw [if_pos h3]
  · intro ikey skey akey resp x y now h hd
    unfold verify_enroll_response
    rw [verify_split_eq ikey skey akey ENROLL_PFX now h]
    rcases hd with h1 | h2 | h3
    · rw [h1]
      split <;> rfl
    · rw [h2]
      rcases hd2 : parse_vals skey x ENROLL_PFX now with _ | v <;> simp [hd2]
    · rw [if_pos h3]
  · intro key val pfx now h
    exact parse_vals_arity3 key pfx now h
  · intro key val p b s pfx now h hne
    rw [parse_vals_split_eq key pfx now h, if_pos hne]
  · intro key val p b s pfx now h hp
    rw [parse_vals_split_eq key pfx now h]
    by_cases hsig : hmac_sha1 key (hmac_sha1 key (p ++ 124 :: b)) ≠ hmac_sha1 key s
    · rw [if_pos hsig]
    · rw [if_neg hsig, if_pos hp]
  · intro key val p b s pfx now h hb
    rw [parse_vals_split_eq key pfx now h]
    by_cases hsig : hmac_sha1 key (hmac_sha1 key (p ++ 124 :: b)) ≠ hmac_sha1 key s
    · rw [if_pos hsig]
    · rw [if_neg hsig]
      by_cases hp : p ≠ pfx
      · rw [if_pos hp]
      · rw [if_neg hp, hb]
  · intro now payload h
    exact parse_payload_arity3 now h
  · intro now payload u ik ex h hint
    unfold parse_payload
    rw [h]
    simp only [hint]
  · intro now payload u ik ex e h hint hge
    unfold parse_payload
    rw [h]
    simp only [hint]
    rw [if_pos hge]

/-- C2 (witness): a response with no colon fails both public verifies. -/
theorem C2_all_failures_none_witness :
    verify_response [] [] [] [] 0 = none ∧
    verify_enroll_response [] [] [] [] 0 = none :=
  C2_all_failures_none.1 [] [] [] [] 0 (by decide)

/-- C3: expiration is strict and checked at verification time against the
verifier clock.  (i) Whenever `_parse_vals` succeeds, the payload carries
an integer expiration `e` with `now < e` strictly.  (ii) A value signed
with duration 300 at time `now`, parsed with the same key and prefix at
any clock `t ≥ now + 300`, fails.  (iii) Parsed at `now + 299`, it
succeeds and returns the username. -/
theorem C3_expiration_strict :
    (∀ key val pfx now u, parse_vals key val pfx now = some u →
      ∃ p b s payload ik ex e,
        pySplit 124 val = [p, b, s] ∧ b64decode b = some payload ∧
        pySplit 124 payload = [u, ik, ex] ∧ pyIntOfBytes ex = some e ∧
        (now : Int) < e) ∧
    (∀ key pfx u ik now t, (∀ c ∈ pfx, c ≠ 124) → isBytes u → isBytes ik →
      (∀ c ∈ u, c ≠ 124) → (∀ c ∈ ik, c ≠ 124) → now + 300 ≤ t →
      parse_vals key (sign_vals key [u, ik] pfx 300 now) pfx t = none) ∧
    (∀ key pfx u ik now, (∀ c ∈ pfx, c ≠ 124) → isBytes u → isBytes ik →
      (∀ c ∈ u, c ≠ 124) → (∀ c ∈ ik, c ≠ 124) →
      parse_vals key (sign_vals key [u, ik] pfx 300 now) pfx (now + 299) = some u) := by
  refine ⟨?_, ?_, ?_⟩
  · intro key val pfx now u h
    obtain ⟨b, s, payload, ik, ex, e, h1, h2, h3, h4, h5, h6⟩ := parse_vals_some_inv h
    exact ⟨pfx, b, s, payload, ik, ex, e, h1, h3, h4, h5, h6⟩
  · intro key pfx u ik now t hpfx hu hik hu2 hik2 ht
    rw [parse_sign_same key pfx u ik 300 now t hpfx hu hik hu2 hik2, if_pos ht]
  · intro key pfx u ik now hpfx hu hik hu2 hik2
    rw [parse_sign_same key pfx u ik 300 now (now + 299) hpfx hu hik hu2 hik2,
      if_neg (by omega)]

/-- C3 (witness): a value signed for 300 seconds at time 0 parses to the
username at clock 299 and fails at clock 300. -/
theorem C3_expiration_strict_witness :
    parse_vals SKEY0 (sign_vals SKEY0 [USER0, IKEY0] AUTH_PFX 300 0) AUTH_PFX (0 + 299) =
      some USER0 ∧
    parse_vals SKEY0 (sign_vals SKEY0 [USER0, IKEY0] AUTH_PFX 300 0) AUTH_PFX 300 =
      none :=
  ⟨C3_expiration_strict.2.2 SKEY0 AUTH_PFX USER0 IKEY0 0 (by decide) (by decide)
      (by decide) (by decide) (by decide),
    C3_expiration_strict.2.1 SKEY0 AUTH_PFX USER0 IKEY0 0 300 (by decide) (by decide)
      (by decide) (by decide) (by decide) (by omega)⟩


/-- Passing the integration-key check. -/
theorem ikey_len_ok {ikey : List Nat} (h : ikey.length = 20) :
    ¬(ikey = [] ∨ ikey.length ≠ IKEY_LEN) := by
  simp [IKEY_LEN, h]
  intro hh
  rw [hh] at h
  simp at h

/-- Passing the secret-key check. -/
theorem skey_len_ok {skey : List Nat} (h : skey.length = 40) :
    ¬(skey = [] ∨ skey.length ≠ SKEY_LEN) := by
  simp [SKEY_LEN, h]
  intro hh
  rw [hh] at h
  simp at h

/-- C4: input validation on the signing path.  Both public signers return
`ERR_USER` for an empty username; `ERR_IKEY` when the integration key is
not exactly 20 bytes (in particular 19); `ERR_SKEY` when the secret key
is not exactly 40 bytes; `ERR_AKEY` when the application key is shorter
than 40 bytes; and with all inputs valid the result is none of the five
sentinels.  All sentinels are returned as values (the embedding is a
total function). -/
theorem C4_sign_validation :
    (∀ ikey skey akey now,
      sign_request ikey skey akey [] now = ERR_USER ∧
      sign_enroll_request ikey skey akey [] now = ERR_USER) ∧
    (∀ ikey skey akey u now, u ≠ [] → ikey.length ≠ 20 →
      sign_request ikey skey akey u now = ERR_IKEY ∧
      sign_enroll_request ikey skey akey u now = ERR_IKEY) ∧
    (∀ ikey skey akey u now, u ≠ [] → ikey.length = 20 → skey.length ≠ 40 →
      sign_request ikey skey akey u now = ERR_SKEY ∧
      sign_enroll_request ikey skey akey u now = ERR_SKEY) ∧
    (∀ ikey skey akey u now, u ≠ [] → ikey.length = 20 → skey.length = 40 →
      akey.length < 40 →
      sign_request ikey skey akey u now = ERR_AKEY ∧
      sign_enroll_request ikey skey akey u now = ERR_AKEY) ∧
    (∀ ikey skey akey u now, u ≠ [] → ikey.length = 20 → skey.length = 40 →
      40 ≤ akey.length →
      (sign_request ikey skey akey u now ≠ ERR_USER ∧
       sign_request ikey skey akey u now ≠ ERR_IKEY ∧
       sign_request ikey skey akey u now ≠ ERR_SKEY ∧
       sign_request ikey skey akey u now ≠ ERR_AKEY ∧
       sign_request ikey skey akey u now ≠ ERR_UNKNOWN) ∧
      (sign_enroll_request ikey skey akey u now ≠ ERR_USER ∧
       sign_enroll_request ikey skey akey u now ≠ ERR_IKEY ∧
       sign_enroll_request ikey skey akey u now ≠ ERR_SKEY ∧
       sign_enroll_request ikey skey akey u now ≠ ERR_AKEY ∧
       sign_enroll_request ikey skey akey u now ≠ ERR_UNKNOWN)) := by
  refine ⟨?_, ?_, ?_, ?_, ?_⟩
  · intro ikey skey akey now
    exact ⟨by unfold sign_request sign_request_p; rw [if_pos rfl],
      by unfold sign_enroll_request sign_request_p; rw [if_pos rfl]⟩
  · intro ikey skey akey u now hu hik
    have hcond : ikey = [] ∨ ikey.length ≠ IKEY_LEN := Or.inr (by simp [IKEY_LEN, hik])
    exact ⟨by unfold sign_request sign_request_p; rw [if_neg hu, if_pos hcond],
      by unfold sign_enroll_request sign_request_p; rw [if_neg hu, if_pos hcond]⟩
  · intro ikey skey akey u now hu hik hsk
    have hcond : skey = [] ∨ skey.length ≠ SKEY_LEN := Or.inr (by simp [SKEY_LEN, hsk])
    constructor
    · unfold sign_request sign_request_p
      rw [if_neg hu, if_neg (ikey_len_ok hik), if_pos hcond]
    · unfold sign_enroll_request sign_request_p
      rw [if_neg hu, if_neg (ikey_len_ok hik), if_pos hcond]
  · intro ikey skey akey u now hu hik hsk hak
    have hcond : akey = [] ∨ akey.length < AKEY_LEN := Or.inr (by simp [AKEY_LEN]; omega)
    constructor
    · unfold sign_request sign_request_p
      rw [if_neg hu, if_neg (ikey_len_ok hik), if_neg (skey_len_ok hsk), if_pos hcond]
    · unfold sign_enroll_request sign_request_p
      rw [if_neg hu, if_neg (ikey_len_ok hik), if_neg (skey_len_ok hsk), if_pos hcond]
  · intro ikey skey akey u now hu hik hsk hak
    exact ⟨sign_request_p_ne_sentinel ikey skey akey u DUO_PFX now hu hik hsk hak
        (Or.inl rfl),
      sign_request_p_ne_sentinel ikey skey akey u ENROLL_REQUEST_PFX now hu hik hsk hak
        (Or.inr rfl)⟩

/-- C4 (witness): a 19-byte integration key yields the integration-key
sentinel; a 39-byte application key yields the application-key sentinel. -/
theorem C4_sign_validation_witness :
    sign_request (List.replicate 19 73) SKEY0 AKEY0 USER0 0 = ERR_IKEY ∧
    sign_request IKEY0 SKEY0 (List.replicate 39 65) USER0 0 = ERR_AKEY :=
  ⟨(C4_sign_validation.2.1 (List.replicate 19 73) SKEY0 AKEY0 USER0 0 (by decide)
      (by decide)).1,
   (C4_sign_validation.2.2.2.1 IKEY0 SKEY0 (List.replicate 39 65) USER0 0 (by decide)
      (by decide) (by decide) (by decide)).1⟩

/-- C5: the wire format.  For valid inputs `sign_request` returns
`duo_part ++ ':' ++ app_part`, where each part is
`prefix | base64(username | ikey | expiration) | hexhmac(key, prefix | base64(payload))`:
the provider part uses prefix `TX` (`DUO_PFX`) with expiration `now + 300`
under the secret key, the application part prefix `APP` with expiration
`now + 3600` under the application key; signatures are lowercase-hex
HMAC-SHA1 over the pre-signature portion. -/
theorem C5_wire_format (ikey skey akey u : List Nat) (now : Nat)
    (hu : u ≠ []) (hik : ikey.length = 20) (hsk : skey.length = 40)
    (hak : 40 ≤ akey.length) :
    sign_request ikey skey akey u now =
      ((DUO_PFX ++ 124 :: b64encode (u ++ 124 :: (ikey ++ 124 :: natDecRepr (now + 300)))) ++
        124 :: hmac_sha1 skey
          (DUO_PFX ++ 124 :: b64encode (u ++ 124 :: (ikey ++ 124 :: natDecRepr (now + 300))))) ++
      58 :: ((APP_PFX ++ 124 :: b64encode (u ++ 124 :: (ikey ++ 124 :: natDecRepr (now + 3600)))) ++
        124 :: hmac_sha1 akey
          (APP_PFX ++ 124 :: b64encode (u ++ 124 :: (ikey ++ 124 :: natDecRepr (now + 3600))))) := by
  unfold sign_request
  rw [sign_request_p_valid ikey skey akey u DUO_PFX now hu hik hsk hak,
    sign_vals_two, sign_vals_two]
  rfl

/-- C5 (witness): the format equation at the end-to-end inputs. -/
theorem C5_wire_format_witness :
    sign_request IKEY0 SKEY0 AKEY0 USER0 0 =
      ((DUO_PFX ++ 124 :: b64encode (USER0 ++ 124 :: (IKEY0 ++ 124 :: natDecRepr (0 + 300)))) ++
        124 :: hmac_sha1 SKEY0
          (DUO_PFX ++ 124 :: b64encode (USER0 ++ 124 :: (IKEY0 ++ 124 :: natDecRepr (0 + 300))))) ++
      58 :: ((APP_PFX ++ 124 :: b64encode (USER0 ++ 124 :: (IKEY0 ++ 124 :: natDecRepr (0 + 3600)))) ++
        124 :: hmac_sha1 AKEY0
          (APP_PFX ++ 124 :: b64encode (USER0 ++ 124 :: (IKEY0 ++ 124 :: natDecRepr (0 + 3600))))) :=
  C5_wire_format IKEY0 SKEY0 AKEY0 USER0 0 (by decide) (by decide) (by decide) (by decide)


/-- C6: prefix enforcement.  Parsing fails whenever the value's prefix
field differs from the expected prefix (whatever the signature); in
particular a value signed under prefix `ENROLL` fails against expected
prefix `AUTH`, and vice versa, even though it is validly signed with the
same key. -/
theorem C6_prefix_enforcement :
    (∀ key val p b s pfx now, pySplit 124 val = [p, b, s] → p ≠ pfx →
      parse_vals key val pfx now = none) ∧
    (∀ key u ik now t, isBytes u → isBytes ik →
      parse_vals key (sign_vals key [u, ik] ENROLL_PFX DUO_EXPIRE now) AUTH_PFX t =
        none ∧
      parse_vals key (sign_vals key [u, ik] AUTH_PFX DUO_EXPIRE now) ENROLL_PFX t =
        none) := by
  constructor
  · intro key val p b s pfx now h hp
    rw [parse_vals_split_eq key pfx now h]
    by_cases hsig : hmac_sha1 key (hmac_sha1 key (p ++ 124 :: b)) ≠ hmac_sha1 key s
    · rw [if_pos hsig]
    · rw [if_neg hsig, if_pos hp]
  · intro key u ik now t hu hik
    exact ⟨parse_sign_other key ENROLL_PFX AUTH_PFX u ik DUO_EXPIRE now t (by decide)
        hu hik (by decide),
      parse_sign_other key AUTH_PFX ENROLL_PFX u ik DUO_EXPIRE now t (by decide)
        hu hik (by decide)⟩

/-- C6 (witness): the two concrete cross-prefix failures. -/
theorem C6_prefix_enforcement_witness :
    parse_vals SKEY0 (sign_vals SKEY0 [USER0, IKEY0] ENROLL_PFX DUO_EXPIRE 0)
        AUTH_PFX 0 = none ∧
    parse_vals SKEY0 (sign_vals SKEY0 [USER0, IKEY0] AUTH_PFX DUO_EXPIRE 0)
        ENROLL_PFX 0 = none :=
  C6_prefix_enforcement.2 SKEY0 USER0 IKEY0 0 0 (by decide) (by decide)

/-- C7: username binding.  A compound token pairing a provider half
signed for one username with an application half signed for a different
username — both halves validly signed with the correct keys, both
unexpired at the verifying clock — fails verification. -/
theorem C7_username_binding (ikey skey akey u1 u2 ik : List Nat) (now : Nat)
    (h12 : u1 ≠ u2) (hb1 : isBytes u1) (hb2 : isBytes u2) (hikb : isBytes ik)
    (hp1 : ∀ c ∈ u1, c ≠ 124) (hp2 : ∀ c ∈ u2, c ≠ 124)
    (hpik : ∀ c ∈ ik, c ≠ 124) :
    verify_response ikey skey akey
      (sign_vals skey [u1, ik] AUTH_PFX DUO_EXPIRE now ++ 58 ::
        sign_vals akey [u2, ik] APP_PFX APP_EXPIRE now) now = none := by
  unfold verify_response
  have hs1 := sign_vals_no_colon skey AUTH_PFX u1 ik DUO_EXPIRE now (by decide) hb1 hikb
  have hs2 := sign_vals_no_colon akey APP_PFX u2 ik APP_EXPIRE now (by decide) hb2 hikb
  have hsplit : pySplit 58 (sign_vals skey [u1, ik] AUTH_PFX DUO_EXPIRE now ++ 58 ::
      sign_vals akey [u2, ik] APP_PFX APP_EXPIRE now) =
      [sign_vals skey [u1, ik] AUTH_PFX DUO_EXPIRE now,
       sign_vals akey [u2, ik] APP_PFX APP_EXPIRE now] := by
    rw [pySplit_append 58 _ _ hs1, pySplit_single 58 _ hs2]
  rw [verify_split_eq ikey skey akey AUTH_PFX now hsplit]
  rw [parse_sign_same skey AUTH_PFX u1 ik DUO_EXPIRE now now (by decide) hb1 hikb
    hp1 hpik]
  rw [parse_sign_same akey APP_PFX u2 ik APP_EXPIRE now now (by decide) hb2 hikb
    hp2 hpik]
  rw [if_neg (show ¬(now + DUO_EXPIRE ≤ now) by simp only [DUO_EXPIRE]; omega),
    if_neg (show ¬(now + APP_EXPIRE ≤ now) by simp only [APP_EXPIRE]; omega)]
  rw [if_pos (by simp [h12])]

/-- C7 (witness): an `'alice'` provider half paired with a `'bob'`
application half fails verification. -/
theorem C7_username_binding_witness :
    verify_response IKEY0 SKEY0 AKEY0
      (sign_vals SKEY0 [ALICE, IKEY0] AUTH_PFX DUO_EXPIRE 0 ++ 58 ::
        sign_vals AKEY0 [BOB, IKEY0] APP_PFX APP_EXPIRE 0) 0 = none :=
  C7_username_binding IKEY0 SKEY0 AKEY0 ALICE BOB IKEY0 0 (by decide) (by decide)
    (by decide) (by decide) (by decide) (by decide) (by decide)

/-- C8: integration-key noninterference in verification.  The `ikey`
parameter of `verify_response` is dead on the verification path: any two
integration keys give identical results on all other arguments, and the
integration-key claim inside the payload is never compared against it. -/
theorem C8_ikey_noninterference (ikey1 ikey2 skey akey resp : List Nat) (now : Nat) :
    verify_response ikey1 skey akey resp now =
      verify_response ikey2 skey akey resp now := rfl

/-- C10: the delimiter is not validated at signing.  For a username
containing `'|'` (keys all of valid length), `sign_request` still returns
a compound token — none of the error sentinels — and `verify_response`
on that token with the same keys returns `none`; the half whose prefix
does match (the application half) fails precisely because the decoded
payload splits into more than three fields. -/
theorem C10_pipe_username_unvalidated (ikey skey akey u : List Nat) (now : Nat)
    (hu : 124 ∈ u) (hub : isBytes u)
    (hik : ikey.length = 20) (hikb : isBytes ikey) (hikp : ∀ c ∈ ikey, c ≠ 124)
    (hsk : skey.length = 40) (hak : 40 ≤ akey.length) :
    (sign_request ikey skey akey u now ≠ ERR_USER ∧
     sign_request ikey skey akey u now ≠ ERR_IKEY ∧
     sign_request ikey skey akey u now ≠ ERR_SKEY ∧
     sign_request ikey skey akey u now ≠ ERR_AKEY ∧
     sign_request ikey skey akey u now ≠ ERR_UNKNOWN) ∧
    verify_response ikey skey akey (sign_request ikey skey akey u now) now = none ∧
    parse_vals akey (sign_vals akey [u, ikey] APP_PFX APP_EXPIRE now) APP_PFX now =
      none := by
  have hune : u ≠ [] := List.ne_nil_of_mem hu
  refine ⟨sign_request_p_ne_sentinel ikey skey akey u DUO_PFX now hune hik hsk hak
    (Or.inl rfl), ?_, ?_⟩
  · unfold verify_response sign_request
    rw [sign_request_p_valid ikey skey akey u DUO_PFX now hune hik hsk hak]
    have hs1 := sign_vals_no_colon skey DUO_PFX u ikey DUO_EXPIRE now (by decide)
      hub hikb
    have hs2 := sign_vals_no_colon akey APP_PFX u ikey APP_EXPIRE now (by decide)
      hub hikb
    have hsplit : pySplit 58 (sign_vals skey [u, ikey] DUO_PFX DUO_EXPIRE now ++ 58 ::
        sign_vals akey [u, ikey] APP_PFX APP_EXPIRE now) =
        [sign_vals skey [u, ikey] DUO_PFX DUO_EXPIRE now,
         sign_vals akey [u, ikey] APP_PFX APP_EXPIRE now] := by
      rw [pySplit_append 58 _ _ hs1, pySplit_single 58 _ hs2]
    rw [verify_split_eq ikey skey akey AUTH_PFX now hsplit]
    rw [parse_sign_other skey DUO_PFX AUTH_PFX u ikey DUO_EXPIRE now now (by decide)
      hub hikb (by decide)]
    rw [parse_sign_pipe akey APP_PFX u ikey APP_EXPIRE now now (by decide) hub hikb hu]
    simp
  · exact parse_sign_pipe akey APP_PFX u ikey APP_EXPIRE now now (by decide) hub hikb hu

/-- C10 (witness): the username `'js|mith'` with valid keys. -/
theorem C10_pipe_username_unvalidated_witness :
    (sign_request IKEY0 SKEY0 AKEY0 USER_PIPE 0 ≠ ERR_USER ∧
     sign_request IKEY0 SKEY0 AKEY0 USER_PIPE 0 ≠ ERR_IKEY ∧
     sign_request IKEY0 SKEY0 AKEY0 USER_PIPE 0 ≠ ERR_SKEY ∧
     sign_request IKEY0 SKEY0 AKEY0 USER_PIPE 0 ≠ ERR_AKEY ∧
     sign_request IKEY0 SKEY0 AKEY0 USER_PIPE 0 ≠ ERR_UNKNOWN) ∧
    verify_response IKEY0 SKEY0 AKEY0 (sign_request IKEY0 SKEY0 AKEY0 USER_PIPE 0) 0 =
      none ∧
    parse_vals AKEY0 (sign_vals AKEY0 [USER_PIPE, IKEY0] APP_PFX APP_EXPIRE 0)
      APP_PFX 0 = none :=
  C10_pipe_username_unvalidated IKEY0 SKEY0 AKEY0 USER_PIPE 0 (by decide) (by decide)
    (by decide) (by decide) (by decide) (by decide) (by decide)

end DuoWeb
